import Mathlib

/-!
hhbackend: the colour transform of `main.go`.

A shallow embedding of `createColor` and `createSortableArray` (src/main.go, lines 69-157)
together with the two pieces of the Go language they rest on: the standard library's
`strconv.ParseInt` (called with base 16 and bit size 64) and `float64` arithmetic.

* A Go `string` is a list of bytes; slicing `s[lo:hi]` fails with a run-time error when
  `hi` exceeds the length.
* `fmt.Println(err)` is modelled by returning the list of printed errors; what was
  printed before a run-time error is not kept.
* A `float64` is modelled by the rational number it denotes.  Every arithmetic operation is
  followed by a rounding function `rnd`; `exactly` (no rounding) gives real arithmetic and
  `binary64` gives IEEE 754 round-to-nearest-even with a 53 bit significand, each
  operation rounded on its own (no fused multiply-add).
-/

namespace HHBackend

set_option linter.dupNamespace false
set_option linter.unusedVariables false

/-! ## Go strings -/

/-- Go `byte`. -/
abbrev Byte := Fin 256

/-- Go `string`: a sequence of bytes. -/
abbrev GoString := List Byte

/-- The bytes of a string literal (UTF-8, as the Go compiler stores it). -/
def lit (s : String) : GoString :=
  (s.toList.flatMap String.utf8EncodeChar).map (fun b => Fin.ofNat b.toNat)

/-- Run-time errors (Go panics) that the modelled code can raise. -/
inductive RuntimeError where
  | sliceBoundsOutOfRange
  deriving DecidableEq, Repr

/-- Go slice expression `s[lo:hi]` on a string: a run-time error unless `lo ≤ hi ≤ len(s)`. -/
def slice (s : GoString) (lo hi : Nat) : Except RuntimeError GoString :=
  if lo ≤ hi ∧ hi ≤ s.length then .ok ((s.drop lo).take (hi - lo))
  else .error .sliceBoundsOutOfRange

/-! ## Machine integers -/

/-- Conversion of an integer to a signed `w`-bit integer (two's complement wrap-around). -/
def wrapSigned (w : Nat) (x : Int) : Int :=
  (x + 2 ^ (w - 1)) % 2 ^ w - 2 ^ (w - 1)

/-- Go conversion `int16(x)`. -/
def int16 (x : Int) : Int := wrapSigned 16 x

/-- Go conversion `int64(x)`. -/
def int64 (x : Int) : Int := wrapSigned 64 x

/-! ## strconv.ParseInt (Go standard library), at base 16 and bit size 64 -/

/-- The two error values of package strconv. -/
inductive ErrKind where
  | ErrSyntax
  | ErrRange
  deriving DecidableEq, Repr

/-- Type `strconv.NumError`: the failing function, the input and the reason. -/
structure NumError where
  Func : String
  Num : GoString
  Err : ErrKind
  deriving DecidableEq, Repr

/-- Function `lower` of strconv: `c | ('x' - 'X')`. -/
def lower (c : Byte) : Nat := c.val ||| 32

/-- The digit value of a byte as computed in the loop of `ParseUint`,
`none` for a byte that is no digit or letter. -/
def digitVal (c : Byte) : Option Nat :=
  if 48 ≤ c.val ∧ c.val ≤ 57 then some (c.val - 48)
  else if 97 ≤ lower c ∧ lower c ≤ 122 then some (lower c - 97 + 10)
  else none

/-- The digit loop of `strconv.ParseUint(s0, 16, 64)`; `n` is the `uint64` accumulator.
The underscore case of the source applies to base 0 only. -/
def ParseUint.loop (s0 : GoString) : List Byte → Nat → Nat × Option NumError
  | [], n => (n, none)
  | c :: cs, n =>
    match digitVal c with
    | none => (0, some ⟨"ParseUint", s0, .ErrSyntax⟩)
    | some d =>
      if d ≥ 16 then (0, some ⟨"ParseUint", s0, .ErrSyntax⟩)
      else if n ≥ (2 ^ 64 - 1) / 16 + 1 then (2 ^ 64 - 1, some ⟨"ParseUint", s0, .ErrRange⟩)
      else
        let n16 := (n * 16) % 2 ^ 64
        let n1 := (n16 + d) % 2 ^ 64
        if n1 < n16 ∨ n1 > 2 ^ 64 - 1 then (2 ^ 64 - 1, some ⟨"ParseUint", s0, .ErrRange⟩)
        else ParseUint.loop s0 cs n1

/-- Go `strconv.ParseUint(s, 16, 64)`. -/
def ParseUint (s : GoString) : Nat × Option NumError :=
  if s = [] then (0, some ⟨"ParseUint", s, .ErrSyntax⟩)
  else ParseUint.loop s s 0

/-- Go `strconv.ParseInt(s, 16, 64)`: an optional leading sign, then `ParseUint`, then the
range check against `1 << 63`. -/
def ParseInt (s : GoString) : Int × Option NumError :=
  match s with
  | [] => (0, some ⟨"ParseInt", s, .ErrSyntax⟩)
  | c0 :: rest =>
    let neg : Bool := c0 = 45
    let s1 := if c0 = 43 ∨ c0 = 45 then rest else s
    let (un, err) := ParseUint s1
    let cutoff : Nat := 2 ^ 63
    match err with
    | some ⟨_, _, .ErrSyntax⟩ => (0, some ⟨"ParseInt", s, .ErrSyntax⟩)
    | _ =>
      if !neg ∧ un ≥ cutoff then (int64 (cutoff - 1 : Nat), some ⟨"ParseInt", s, .ErrRange⟩)
      else if neg ∧ un > cutoff then (int64 (-(cutoff : Int)), some ⟨"ParseInt", s, .ErrRange⟩)
      else
        let n := int64 un
        (if neg then int64 (-n) else n, none)

/-! ## float64 arithmetic -/

/-- Real arithmetic: no rounding.  An idealisation, not what the Go code computes; it is
the arithmetic of the statements that say so. -/
def exactly (q : ℚ) : ℚ := q

/-- Round `num / den` (both positive) to the nearest integer, ties to even. -/
def roundHalfEven (num den : Nat) : Nat :=
  let fl := num / den
  let rem := num % den
  if 2 * rem < den then fl
  else if 2 * rem > den then fl + 1
  else if fl % 2 = 0 then fl else fl + 1

/-- The number of binary digits of `n` (`fuel` bounds the recursion; `n` itself is enough). -/
def bitLen : (fuel : Nat) → Nat → Nat
  | 0, _ => 0
  | fuel + 1, n => if n = 0 then 0 else bitLen fuel (n / 2) + 1

/-- IEEE 754 round-to-nearest-even onto a 53 bit significand (the rounding of every
`float64` operation).  The exponent is unbounded: no value of `createColor` leaves the
normal range of `float64`, where this agrees with the hardware. -/
def binary64 (q : ℚ) : ℚ :=
  if q = 0 then 0
  else
    let n := q.num.natAbs
    let d := q.den
    -- `e` is the exponent of the leading bit: `2 ^ e ≤ n / d < 2 ^ (e + 1)`
    let k : Int := (bitLen n n : Int) - (bitLen d d : Int)
    let e : Int := if d * 2 ^ k.toNat ≤ n * 2 ^ (-k).toNat then k else k - 1
    -- scale by `2 ^ (52 - e)` so that the significand is an integer in `[2 ^ 52, 2 ^ 53]`
    let s : Int := 52 - e
    let m := roundHalfEven (n * 2 ^ s.toNat) (d * 2 ^ (-s).toNat)
    let a : Int := if q.num < 0 then -(m : Int) else (m : Int)
    mkRat (a * 2 ^ (-s).toNat) (2 ^ s.toNat)

/-! ## The data model (src/main.go, lines 20-52) -/

/-- Go `type Color struct`. -/
structure Color where
  Id : GoString
  Color : GoString
  Name : GoString
  deriving DecidableEq, Repr

/-- Go `type ColorObject struct`; the `int16` fields are integers, the `float64` fields
the rationals they denote. -/
structure ColorObject where
  Id : GoString
  Color : GoString
  Name : GoString
  Blue : Int
  Red : Int
  Green : Int
  Chroma : ℚ
  Sat : ℚ
  Val : ℚ
  Luma : ℚ
  Hue : ℚ
  deriving DecidableEq, Repr

/-! ## createColor (src/main.go, lines 69-143) -/

/-- One iteration of the loop of lines 96-104 on the pair `(min, max)`. -/
def scanStep (acc : ℚ × ℚ) (color : ℚ) : ℚ × ℚ :=
  let max := if color > acc.2 then color else acc.2
  let min := if color < acc.1 then color else acc.1
  (min, max)

/-- Lines 83-142 of `createColor`: from the parsed channels `r`, `g`, `b` (`int64`) to
the returned object. -/
def createColor.derive (rnd : ℚ → ℚ) (color : Color) (r g b : Int) : ColorObject :=
  -- divide and convert type
  let r2 := rnd (rnd r / 255)
  let g2 := rnd (rnd g / 255)
  let b2 := rnd (rnd b / 255)
  -- min starts at 1 and max at 0; loop through the array
  let colorArray := [r2, g2, b2]
  let scanned := colorArray.foldl scanStep (1, 0)
  let min := scanned.1
  let max := scanned.2
  -- HSV values of hex color
  let chr := rnd (max - min)
  let val := max
  let sat := if val > 0 then rnd (chr / val) else 0
  let hue :=
    if val > 0 then
      if sat > 0 then
        if r2 = max then
          let hue := rnd (60 * rnd (rnd (rnd (g2 - min) - rnd (b2 - min)) / chr))
          if hue < 0 then rnd (hue + 360) else hue
        else if g2 = max then
          rnd (120 + rnd (60 * rnd (rnd (rnd (b2 - min) - rnd (r2 - min)) / chr)))
        else if b2 = max then
          rnd (240 + rnd (60 * rnd (rnd (rnd (r2 - min) - rnd (g2 - min)) / chr)))
        else 0
      else 0
    else 0
  { Id := color.Id
    Name := color.Name
    Color := color.Color
    Blue := int16 b
    Red := int16 r
    Green := int16 g
    Chroma := chr
    Hue := hue
    Luma := rnd (rnd (rnd (rnd (3 / 10) * r2) + rnd (rnd (59 / 100) * g2))
              + rnd (rnd (11 / 100) * b2))
    Sat := sat
    Val := val }

/-- Go `func createColor(color Color) ColorObject`.  The result is a run-time error when a
slice expression is out of range, and otherwise the returned object together with what
was printed: `err` is assigned by each of the three calls and tested once, after the
third. -/
def createColor (rnd : ℚ → ℚ) (color : Color) :
    Except RuntimeError (ColorObject × List NumError) := do
  -- take the color and generate red, blue and green
  let sr ← slice color.Color 1 3
  let (r, err) := ParseInt sr
  let sg ← slice color.Color 3 5
  let (g, err) := ParseInt sg
  let sb ← slice color.Color 5 7
  let (b, err) := ParseInt sb
  -- check for error
  let printed := match err with
    | some e => [e]
    | none => []
  pure (createColor.derive rnd color r g b, printed)

/-! ## createSortableArray (src/main.go, lines 145-157) -/

/-- Go `func createSortableArray(array []Color) []ColorObject`: the loop appends
`createColor(color)` for each element, in order. -/
def createSortableArray (rnd : ℚ → ℚ) (array : List Color) :
    Except RuntimeError (List ColorObject × List NumError) :=
  array.foldlM
    (fun (acc : List ColorObject × List NumError) color => do
      let (obj, printed) ← createColor rnd color
      pure (acc.1 ++ [obj], acc.2 ++ printed))
    ([], [])

/-! ## Vocabulary of the specification -/

/-- A hexadecimal digit: `0-9`, `A-F` or `a-f`. -/
def isHexDigit (c : Byte) : Bool :=
  (48 ≤ c.val && c.val ≤ 57) || (65 ≤ c.val && c.val ≤ 70) || (97 ≤ c.val && c.val ≤ 102)

/-- The hex strings the specification calls valid: `#` followed by exactly six
hexadecimal digits. -/
def validHex : GoString → Bool
  | [h, r1, r0, g1, g0, b1, b0] =>
    h = 35 && isHexDigit r1 && isHexDigit r0 && isHexDigit g1 && isHexDigit g0
      && isHexDigit b1 && isHexDigit b0
  | _ => false

/-- The upper-case hexadecimal digit of `d < 16`. -/
def upperHexDigit (d : Nat) : Byte :=
  if d < 10 then Fin.ofNat (48 + d) else Fin.ofNat (55 + d)

/-- A channel written as two upper-case hexadecimal digits. -/
def encodeHex2 (n : Int) : GoString :=
  [upperHexDigit (n.toNat / 16), upperHexDigit (n.toNat % 16)]

/-- ASCII upper-casing of one byte. -/
def toUpper (c : Byte) : Byte :=
  if 97 ≤ c.val ∧ c.val ≤ 122 then Fin.ofNat (c.val - 32) else c

/-- The smallest of three numbers. -/
def min3 (a b c : ℚ) : ℚ := min a (min b c)

/-- The largest of three numbers. -/
def max3 (a b c : ℚ) : ℚ := max a (max b c)

/-- A record with the given hex string and empty id and name. -/
def ofHex (s : String) : Color := ⟨[], lit s, []⟩

/-- A channel divided by 255. -/
def normalized (x : Int) : ℚ := (x : ℚ) / 255

/-- A channel converted to `float64` and divided by 255, as in lines 84-86. -/
def normalizedWith (rnd : ℚ → ℚ) (x : Int) : ℚ := rnd (rnd x / 255)

/-- The hue of the specification (section 4.4), written from its words: 0 when the
saturation is 0, otherwise the first matching branch in the order red, green, blue.  The
last `else` is never reached: one of the three channels is the maximum. -/
def specHue (r g b : ℚ) : ℚ :=
  let max := max3 r g b
  let min := min3 r g b
  let chroma := max - min
  let saturation := if max = 0 then 0 else chroma / max
  if saturation = 0 then 0
  else if r = max then
    let hue := 60 * ((g - min) - (b - min)) / chroma
    if hue < 0 then hue + 360 else hue
  else if g = max then 120 + 60 * ((b - min) - (r - min)) / chroma
  else if b = max then 240 + 60 * ((r - min) - (g - min)) / chroma
  else 0

/-- The value `strconv.ParseInt` returns for the two bytes of a hex string at `lo`. -/
def channel (s : GoString) (lo : Nat) : Int := (ParseInt ((s.drop lo).take 2)).1

/-- The error `strconv.ParseInt` returns for the two bytes of a hex string at `lo`. -/
def channelError (s : GoString) (lo : Nat) : Option NumError :=
  (ParseInt ((s.drop lo).take 2)).2

/-- The object of a call that returned, `none` for a call that stopped with a run-time
error. -/
def returned (r : Except RuntimeError (ColorObject × List NumError)) : Option ColorObject :=
  match r with
  | .ok (o, _) => some o
  | .error _ => none

/-! ## Slicing -/

theorem slice_ok_iff (s : GoString) (lo hi : Nat) :
    (∃ t, slice s lo hi = .ok t) ↔ lo ≤ hi ∧ hi ≤ s.length := by
  unfold slice
  split_ifs with h
  · exact ⟨fun _ => h, fun _ => ⟨_, rfl⟩⟩
  · constructor
    · rintro ⟨t, ht⟩
      cases ht
    · intro h1
      exact absurd h1 h

theorem slice_error_of_short (s : GoString) (lo hi : Nat) (h : s.length < hi) :
    slice s lo hi = .error .sliceBoundsOutOfRange := by
  unfold slice
  rw [if_neg]
  omega

theorem exists_seven (s : GoString) (h : 7 ≤ s.length) :
    ∃ a0 a1 a2 a3 a4 a5 a6 rest, s = a0 :: a1 :: a2 :: a3 :: a4 :: a5 :: a6 :: rest := by
  match s, h with
  | a0 :: a1 :: a2 :: a3 :: a4 :: a5 :: a6 :: rest, _ =>
    exact ⟨a0, a1, a2, a3, a4, a5, a6, rest, rfl⟩

/-- On a string of at least seven bytes `createColor` parses bytes 1-2, 3-4 and 5-6 and
prints the error of the third parse only. -/
theorem createColor_cons (rnd : ℚ → ℚ) (c : Color) (a0 a1 a2 a3 a4 a5 a6 : Byte)
    (rest : GoString) (hs : c.Color = a0 :: a1 :: a2 :: a3 :: a4 :: a5 :: a6 :: rest) :
    createColor rnd c = .ok
      (createColor.derive rnd c (ParseInt [a1, a2]).1 (ParseInt [a3, a4]).1
          (ParseInt [a5, a6]).1,
        match (ParseInt [a5, a6]).2 with
        | some e => [e]
        | none => []) := by
  have e1 : slice c.Color 1 3 = .ok [a1, a2] := by
    rw [hs]; unfold slice; rw [if_pos (by simp)]; rfl
  have e2 : slice c.Color 3 5 = .ok [a3, a4] := by
    rw [hs]; unfold slice; rw [if_pos (by simp)]; rfl
  have e3 : slice c.Color 5 7 = .ok [a5, a6] := by
    rw [hs]; unfold slice; rw [if_pos (by simp)]; rfl
  unfold createColor
  rw [e1, e2, e3]
  rfl

theorem createColor_short (rnd : ℚ → ℚ) (c : Color) (h : c.Color.length < 7) :
    createColor rnd c = .error .sliceBoundsOutOfRange := by
  unfold createColor
  by_cases h3 : 3 ≤ c.Color.length
  · by_cases h5 : 5 ≤ c.Color.length
    · have e1 : slice c.Color 1 3 = .ok ((c.Color.drop 1).take 2) := by
        unfold slice; rw [if_pos ⟨by omega, h3⟩]
      have e2 : slice c.Color 3 5 = .ok ((c.Color.drop 3).take 2) := by
        unfold slice; rw [if_pos ⟨by omega, h5⟩]
      rw [e1, e2, slice_error_of_short _ 5 7 h]
      rfl
    · have e1 : slice c.Color 1 3 = .ok ((c.Color.drop 1).take 2) := by
        unfold slice; rw [if_pos ⟨by omega, h3⟩]
      rw [e1, slice_error_of_short _ 3 5 (by omega)]
      rfl
  · rw [slice_error_of_short _ 1 3 (by omega)]
    rfl

/-! ## The parser on two bytes -/

theorem int64_of_small (x : Int) (h1 : -9223372036854775808 ≤ x)
    (h2 : x < 9223372036854775808) : int64 x = x := by
  unfold int64 wrapSigned
  norm_num
  omega

theorem int16_of_small (x : Int) (h1 : -32768 ≤ x) (h2 : x < 32768) : int16 x = x := by
  unfold int16 wrapSigned
  norm_num
  omega

theorem digitVal_lt (c : Byte) : ∀ d, digitVal c = some d → d < 36 := by
  revert c
  decide!

theorem digitVal_sign (c : Byte) (h : c = 43 ∨ c = 45) : digitVal c = none := by
  rcases h with h | h <;> subst h <;> rfl

theorem ParseUint_one (y : Byte) (d : Nat) (hy : digitVal y = some d) (hd : d < 16) :
    ParseUint [y] = (d, none) := by
  have h1 : d % 18446744073709551616 = d := Nat.mod_eq_of_lt (by omega)
  simp [ParseUint, ParseUint.loop, hy, h1]
  rw [if_neg (by omega), if_neg (by omega)]

theorem ParseUint_two (x y : Byte) (dx dy : Nat) (hx : digitVal x = some dx)
    (hy : digitVal y = some dy) (hdx : dx < 16) (hdy : dy < 16) :
    ParseUint [x, y] = (16 * dx + dy, none) := by
  have h1 : dx % 18446744073709551616 = dx := Nat.mod_eq_of_lt (by omega)
  have h2 : (dx * 16 + dy) % 18446744073709551616 = dx * 16 + dy :=
    Nat.mod_eq_of_lt (by omega)
  have h3 : dx * 16 % 18446744073709551616 = dx * 16 := Nat.mod_eq_of_lt (by omega)
  simp [ParseUint, ParseUint.loop, hy, hx, h1, h2, h3]
  rw [if_neg (by omega), if_neg (by omega), if_neg (by omega), if_neg (by omega),
    if_neg (by omega), Nat.mul_comm]

theorem ParseUint_one_bad (y : Byte) (h : ∀ d, digitVal y = some d → 16 ≤ d) :
    ParseUint [y] = (0, some ⟨"ParseUint", [y], .ErrSyntax⟩) := by
  cases hy : digitVal y with
  | none => simp [ParseUint, ParseUint.loop, hy]
  | some d =>
    have := h d hy
    simp [ParseUint, ParseUint.loop, hy, this]

theorem ParseUint_two_bad (x y : Byte)
    (h : (∀ d, digitVal x = some d → 16 ≤ d) ∨ (∀ d, digitVal y = some d → 16 ≤ d)) :
    ParseUint [x, y] = (0, some ⟨"ParseUint", [x, y], .ErrSyntax⟩) := by
  cases hx : digitVal x with
  | none => simp [ParseUint, ParseUint.loop, hx]
  | some dx =>
    by_cases hdx : 16 ≤ dx
    · simp [ParseUint, ParseUint.loop, hx, hdx]
    · have h1 : dx % 18446744073709551616 = dx := Nat.mod_eq_of_lt (by omega)
      have hy : ∀ d, digitVal y = some d → 16 ≤ d := by
        rcases h with h | h
        · exact absurd (h dx hx) hdx
        · exact h
      cases hy2 : digitVal y with
      | none =>
        simp [ParseUint, ParseUint.loop, hx, hdx, h1, hy2]
        omega
      | some dy =>
        have := hy dy hy2
        simp [ParseUint, ParseUint.loop, hx, hdx, h1, hy2, this]
        omega

/-- Every outcome of `ParseInt` on a two-byte string: two hexadecimal digits, a sign and
one digit, or a syntax error with value 0. -/
theorem ParseInt_two_cases (x y : Byte) :
    (∃ dx dy, digitVal x = some dx ∧ digitVal y = some dy ∧ dx < 16 ∧ dy < 16 ∧
        ParseInt [x, y] = (((16 * dx + dy : Nat) : Int), none))
    ∨ (x = 43 ∧ ∃ dy, digitVal y = some dy ∧ dy < 16 ∧ ParseInt [x, y] = ((dy : Int), none))
    ∨ (x = 45 ∧ ∃ dy, digitVal y = some dy ∧ dy < 16 ∧ ParseInt [x, y] = (-(dy : Int), none))
    ∨ ParseInt [x, y] = (0, some ⟨"ParseInt", [x, y], .ErrSyntax⟩) := by
  by_cases hgood : ∃ dy, digitVal y = some dy ∧ dy < 16
  · obtain ⟨dy, hy, hdy⟩ := hgood
    by_cases h45 : x = 45
    · right; right; left
      refine ⟨h45, dy, hy, hdy, ?_⟩
      subst h45
      have e1 : int64 (dy : Int) = dy := int64_of_small _ (by omega) (by omega)
      have e2 : int64 (-(dy : Int)) = -dy := int64_of_small _ (by omega) (by omega)
      simp [ParseInt, ParseUint_one y dy hy hdy, e1, e2]
      omega
    · by_cases h43 : x = 43
      · right; left
        refine ⟨h43, dy, hy, hdy, ?_⟩
        subst h43
        have e1 : int64 (dy : Int) = dy := int64_of_small _ (by omega) (by omega)
        simp [ParseInt, ParseUint_one y dy hy hdy, e1]
        omega
      · by_cases hgx : ∃ dx, digitVal x = some dx ∧ dx < 16
        · obtain ⟨dx, hx, hdx⟩ := hgx
          left
          refine ⟨dx, dy, hx, hy, hdx, hdy, ?_⟩
          have e1 : int64 (16 * (dx : Int) + dy) = 16 * dx + dy :=
            int64_of_small _ (by omega) (by omega)
          simp [ParseInt, h43, h45, ParseUint_two x y dx dy hx hy hdx hdy, e1]
          omega
        · right; right; right
          have hb : ∀ d, digitVal x = some d → 16 ≤ d := by
            intro d hd
            by_contra hlt
            exact hgx ⟨d, hd, by omega⟩
          simp [ParseInt, h43, h45, ParseUint_two_bad x y (Or.inl hb)]
  · right; right; right
    have hb : ∀ d, digitVal y = some d → 16 ≤ d := by
      intro d hd
      by_contra hlt
      exact hgood ⟨d, hd, by omega⟩
    by_cases hs : x = 43 ∨ x = 45
    · simp [ParseInt, hs, ParseUint_one_bad y hb]
    · simp [ParseInt, hs, ParseUint_two_bad x y (Or.inr hb)]

/-! ## Hexadecimal digits -/

theorem isHexDigit_digitVal (c : Byte) : isHexDigit c = true →
    ∃ d, digitVal c = some d ∧ d < 16 ∧ upperHexDigit d = toUpper c := by
  revert c
  decide!

/-- On two hexadecimal digits the parser returns their value, without error. -/
theorem ParseInt_hex (x y : Byte) (hx : isHexDigit x = true) (hy : isHexDigit y = true) :
    ∃ dx dy, dx < 16 ∧ dy < 16 ∧ upperHexDigit dx = toUpper x ∧ upperHexDigit dy = toUpper y ∧
      ParseInt [x, y] = (((16 * dx + dy : Nat) : Int), none) := by
  obtain ⟨dx, hdx, hlx, hux⟩ := isHexDigit_digitVal x hx
  obtain ⟨dy, hdy, hly, huy⟩ := isHexDigit_digitVal y hy
  refine ⟨dx, dy, hlx, hly, hux, huy, ?_⟩
  have h2 := ParseUint_two x y dx dy hdx hdy hlx hly
  have hne43 : x ≠ 43 := by
    rintro rfl
    cases hdx
  have hne45 : x ≠ 45 := by
    rintro rfl
    cases hdx
  have e1 : int64 (16 * (dx : Int) + dy) = 16 * dx + dy :=
    int64_of_small _ (by omega) (by omega)
  simp [ParseInt, hne43, hne45, h2, e1]
  omega

theorem ParseInt_two_range (x y : Byte) :
    -15 ≤ (ParseInt [x, y]).1 ∧ (ParseInt [x, y]).1 ≤ 255 := by
  rcases ParseInt_two_cases x y with h | h | h | h
  · obtain ⟨dx, dy, _, _, h3, h4, h5⟩ := h
    rw [h5]
    constructor <;> simp <;> omega
  · obtain ⟨_, dy, _, h3, h5⟩ := h
    rw [h5]
    constructor <;> simp <;> omega
  · obtain ⟨_, dy, _, h3, h5⟩ := h
    rw [h5]
    constructor <;> simp <;> omega
  · rw [h]
    constructor <;> simp

theorem ParseInt_two_error (x y : Byte) (h : (ParseInt [x, y]).2 ≠ none) :
    ParseInt [x, y] = (0, some ⟨"ParseInt", [x, y], .ErrSyntax⟩) := by
  rcases ParseInt_two_cases x y with h1 | h1 | h1 | h1
  · obtain ⟨dx, dy, _, _, h3, h4, h5⟩ := h1
    rw [h5] at h
    exact absurd rfl h
  · obtain ⟨_, dy, _, h3, h5⟩ := h1
    rw [h5] at h
    exact absurd rfl h
  · obtain ⟨_, dy, _, h3, h5⟩ := h1
    rw [h5] at h
    exact absurd rfl h
  · exact h1

/-! ## Valid hex strings -/

theorem validHex_elim (s : GoString) (h : validHex s = true) :
    ∃ a1 a2 a3 a4 a5 a6, s = [35, a1, a2, a3, a4, a5, a6] ∧ isHexDigit a1 = true ∧
      isHexDigit a2 = true ∧ isHexDigit a3 = true ∧ isHexDigit a4 = true ∧
      isHexDigit a5 = true ∧ isHexDigit a6 = true := by
  match s, h with
  | [h0, a1, a2, a3, a4, a5, a6], h =>
    simp only [validHex, Bool.and_eq_true, decide_eq_true_eq] at h
    obtain ⟨⟨⟨⟨⟨⟨h0, h1⟩, h2⟩, h3⟩, h4⟩, h5⟩, h6⟩ := h
    subst h0
    exact ⟨a1, a2, a3, a4, a5, a6, rfl, h1, h2, h3, h4, h5, h6⟩

theorem encodeHex2_digits (dx dy : Nat) (hy : dy < 16) :
    encodeHex2 ((16 * dx + dy : Nat) : Int) = [upperHexDigit dx, upperHexDigit dy] := by
  unfold encodeHex2
  have h1 : (16 * dx + dy) / 16 = dx := by omega
  have h2 : (16 * dx + dy) % 16 = dy := by omega
  simp only [Int.toNat_ofNat, h1, h2]

/-- On a valid hex string `createColor` returns, prints nothing, and its three channels
are numbers up to 255 whose upper-case hexadecimal digits are those of the string. -/
theorem createColor_valid (rnd : ℚ → ℚ) (c : Color) (h : validHex c.Color = true) :
    ∃ R G B : Nat, R ≤ 255 ∧ G ≤ 255 ∧ B ≤ 255 ∧
      createColor rnd c = .ok (createColor.derive rnd c R G B, []) ∧
      (35 : Byte) :: (encodeHex2 R ++ encodeHex2 G ++ encodeHex2 B) = c.Color.map toUpper := by
  obtain ⟨a1, a2, a3, a4, a5, a6, hs, h1, h2, h3, h4, h5, h6⟩ := validHex_elim _ h
  obtain ⟨r1, r0, hr1, hr0, ur1, ur0, er⟩ := ParseInt_hex a1 a2 h1 h2
  obtain ⟨g1, g0, hg1, hg0, ug1, ug0, eg⟩ := ParseInt_hex a3 a4 h3 h4
  obtain ⟨b1, b0, hb1, hb0, ub1, ub0, eb⟩ := ParseInt_hex a5 a6 h5 h6
  refine ⟨16 * r1 + r0, 16 * g1 + g0, 16 * b1 + b0, by omega, by omega, by omega, ?_, ?_⟩
  · rw [createColor_cons rnd c 35 a1 a2 a3 a4 a5 a6 [] hs, er, eg, eb]
  · rw [hs, encodeHex2_digits r1 r0 hr0, encodeHex2_digits g1 g0 hg0,
      encodeHex2_digits b1 b0 hb0, ur1, ur0, ug1, ug0, ub1, ub0]
    rfl

/-! ## The arithmetic of createColor, taken exactly -/

theorem scanStep_eq (acc : ℚ × ℚ) (v : ℚ) : scanStep acc v = (min acc.1 v, max acc.2 v) := by
  unfold scanStep
  ext
  · simp only [min_def]
    split_ifs <;> first | rfl | (exfalso; linarith)
  · simp only [max_def, gt_iff_lt]
    split_ifs <;> first | rfl | (exfalso; linarith) | linarith

/-- Started from `(1, 0)`, the scan of three numbers, the first of them in `[0, 1]`, ends
in their minimum and maximum. -/
theorem scan_unit (x y z : ℚ) (hx0 : 0 ≤ x) (hx1 : x ≤ 1) :
    [x, y, z].foldl scanStep (1, 0) = (min3 x y z, max3 x y z) := by
  simp only [List.foldl, scanStep_eq, min3, max3, min_eq_right hx1, max_eq_right hx0,
    min_assoc, max_assoc]

theorem channel_unit (R : Nat) (h : R ≤ 255) :
    0 ≤ ((R : Int) : ℚ) / 255 ∧ ((R : Int) : ℚ) / 255 ≤ 1 := by
  have h1 : ((R : Int) : ℚ) = (R : ℚ) := by norm_cast
  have h2 : (R : ℚ) ≤ 255 := by exact_mod_cast h
  have h3 : (0 : ℚ) ≤ R := by positivity
  rw [h1]
  constructor
  · positivity
  · rw [div_le_one (by norm_num)]
    exact h2

theorem min3_le (x y z : ℚ) : min3 x y z ≤ x ∧ min3 x y z ≤ y ∧ min3 x y z ≤ z := by
  unfold min3
  exact ⟨min_le_left _ _, le_trans (min_le_right _ _) (min_le_left _ _),
    le_trans (min_le_right _ _) (min_le_right _ _)⟩

theorem le_max3 (x y z : ℚ) : x ≤ max3 x y z ∧ y ≤ max3 x y z ∧ z ≤ max3 x y z := by
  unfold max3
  exact ⟨le_max_left _ _, le_trans (le_max_left _ _) (le_max_right _ _),
    le_trans (le_max_right _ _) (le_max_right _ _)⟩

theorem max3_mem (x y z : ℚ) : x = max3 x y z ∨ y = max3 x y z ∨ z = max3 x y z := by
  unfold max3
  rcases max_choice x (max y z) with h | h
  · exact Or.inl h.symm
  · rcases max_choice y z with h2 | h2
    · right; left; rw [h, h2]
    · right; right; rw [h, h2]

/-- The quotient in the hue formulas lies in `[-1, 1]`. -/
theorem hue_quotient (p q mn chr : ℚ) (hp0 : mn ≤ p) (hp1 : p ≤ mn + chr) (hq0 : mn ≤ q)
    (hq1 : q ≤ mn + chr) (hc : 0 < chr) :
    -1 ≤ ((p - mn) - (q - mn)) / chr ∧ ((p - mn) - (q - mn)) / chr ≤ 1 := by
  constructor
  · rw [le_div_iff₀ hc]
    linarith
  · rw [div_le_one hc]
    linarith

theorem min3_nonneg (x y z : ℚ) (hx : 0 ≤ x) (hy : 0 ≤ y) (hz : 0 ≤ z) : 0 ≤ min3 x y z :=
  le_min hx (le_min hy hz)

theorem max3_le_one (x y z : ℚ) (hx : x ≤ 1) (hy : y ≤ 1) (hz : z ≤ 1) : max3 x y z ≤ 1 :=
  max_le hx (max_le hy hz)

/-- The ranges of the derived fields for channels in `[0, 255]`, in exact arithmetic. -/
theorem derive_bounds (c : Color) (R G B : Nat) (hR : R ≤ 255) (hG : G ≤ 255)
    (hB : B ≤ 255) :
    0 ≤ (createColor.derive exactly c R G B).Hue ∧ (createColor.derive exactly c R G B).Hue < 360 ∧
    0 ≤ (createColor.derive exactly c R G B).Sat ∧ (createColor.derive exactly c R G B).Sat ≤ 1 ∧
    0 ≤ (createColor.derive exactly c R G B).Val ∧ (createColor.derive exactly c R G B).Val ≤ 1 ∧
    0 ≤ (createColor.derive exactly c R G B).Chroma ∧
    (createColor.derive exactly c R G B).Chroma ≤ 1 ∧
    0 ≤ (createColor.derive exactly c R G B).Luma ∧ (createColor.derive exactly c R G B).Luma ≤ 1 ∧
    (createColor.derive exactly c R G B).Chroma ≤ (createColor.derive exactly c R G B).Val := by
  obtain ⟨hx0, hx1⟩ := channel_unit R hR
  obtain ⟨hy0, hy1⟩ := channel_unit G hG
  obtain ⟨hz0, hz1⟩ := channel_unit B hB
  simp only [createColor.derive, exactly, scan_unit _ _ _ hx0 hx1]
  obtain ⟨hm1, hm2, hm3⟩ := min3_le (((R : Int) : ℚ) / 255) (((G : Int) : ℚ) / 255)
    (((B : Int) : ℚ) / 255)
  obtain ⟨hM1, hM2, hM3⟩ := le_max3 (((R : Int) : ℚ) / 255) (((G : Int) : ℚ) / 255)
    (((B : Int) : ℚ) / 255)
  have hm0 := min3_nonneg _ _ _ hx0 hy0 hz0
  have hM0 := max3_le_one _ _ _ hx1 hy1 hz1
  generalize min3 (((R : Int) : ℚ) / 255) (((G : Int) : ℚ) / 255) (((B : Int) : ℚ) / 255) = mn
    at *
  generalize max3 (((R : Int) : ℚ) / 255) (((G : Int) : ℚ) / 255) (((B : Int) : ℚ) / 255) = mx
    at *
  generalize ((R : Int) : ℚ) / 255 = x at *
  generalize ((G : Int) : ℚ) / 255 = y at *
  generalize ((B : Int) : ℚ) / 255 = z at *
  have hsat0 : 0 ≤ if mx > 0 then (mx - mn) / mx else 0 := by
    split_ifs with h
    · exact div_nonneg (by linarith) (le_of_lt h)
    · exact le_refl _
  have hchr : mx > 0 → (mx - mn) / mx > 0 → 0 < mx - mn := by
    intro h1 h
    by_contra hn
    have : mx - mn = 0 := by linarith
    rw [this, zero_div] at h
    exact lt_irrefl _ h
  have hq : 0 < mx - mn →
      (-1 ≤ (y - mn - (z - mn)) / (mx - mn) ∧ (y - mn - (z - mn)) / (mx - mn) ≤ 1) ∧
      (-1 ≤ (z - mn - (x - mn)) / (mx - mn) ∧ (z - mn - (x - mn)) / (mx - mn) ≤ 1) ∧
      (-1 ≤ (x - mn - (y - mn)) / (mx - mn) ∧ (x - mn - (y - mn)) / (mx - mn) ≤ 1) := by
    intro hc
    exact ⟨hue_quotient y z mn (mx - mn) hm2 (by linarith) hm3 (by linarith) hc,
      hue_quotient z x mn (mx - mn) hm3 (by linarith) hm1 (by linarith) hc,
      hue_quotient x y mn (mx - mn) hm1 (by linarith) hm2 (by linarith) hc⟩
  refine ⟨?_, ?_, hsat0, ?_, by linarith, hM0, by linarith, by linarith, ?_, ?_, by linarith⟩
  · split_ifs with h1 h2 <;>
      first
      | exact le_refl _
      | (obtain ⟨⟨q1, q2⟩, ⟨q3, q4⟩, q5, q6⟩ := hq (hchr h1 h2)
         linarith)
  · split_ifs with h1 h2 <;>
      first
      | (norm_num; done)
      | (obtain ⟨⟨q1, q2⟩, ⟨q3, q4⟩, q5, q6⟩ := hq (hchr h1 h2)
         linarith)
  · split_ifs with h
    · rw [div_le_one h]
      linarith
    · norm_num
  · linarith
  · linarith

/-! ## createSortableArray -/

/-- The loop body of `createSortableArray`. -/
theorem createSortableArray_cons_ok (rnd : ℚ → ℚ) (c : Color) (rest : List Color)
    (acc : List ColorObject × List NumError) (o : ColorObject) (p : List NumError)
    (h : createColor rnd c = .ok (o, p)) :
    (c :: rest).foldlM
      (fun (acc : List ColorObject × List NumError) color => do
        let (obj, printed) ← createColor rnd color
        pure (acc.1 ++ [obj], acc.2 ++ printed)) acc
    = rest.foldlM
      (fun (acc : List ColorObject × List NumError) color => do
        let (obj, printed) ← createColor rnd color
        pure (acc.1 ++ [obj], acc.2 ++ printed)) (acc.1 ++ [o], acc.2 ++ p) := by
  rw [List.foldlM_cons, h]
  rfl

theorem createSortableArray_cons_error (rnd : ℚ → ℚ) (c : Color) (rest : List Color)
    (acc : List ColorObject × List NumError) (e : RuntimeError)
    (h : createColor rnd c = .error e) :
    (c :: rest).foldlM
      (fun (acc : List ColorObject × List NumError) color => do
        let (obj, printed) ← createColor rnd color
        pure (acc.1 ++ [obj], acc.2 ++ printed)) acc
    = .error e := by
  rw [List.foldlM_cons, h]
  rfl

/-- When every call of `createColor` returns, the loop appends the returned objects, and
the printed lines, in order. -/
theorem createSortableArray_fold (rnd : ℚ → ℚ) (array : List Color)
    (rs : List (ColorObject × List NumError))
    (h : List.Forall₂ (fun c r => createColor rnd c = .ok r) array rs)
    (acc : List ColorObject × List NumError) :
    array.foldlM
      (fun (acc : List ColorObject × List NumError) color => do
        let (obj, printed) ← createColor rnd color
        pure (acc.1 ++ [obj], acc.2 ++ printed)) acc
    = .ok (acc.1 ++ rs.map Prod.fst, acc.2 ++ (rs.map Prod.snd).flatten) := by
  induction h generalizing acc with
  | nil => simp [List.foldlM_nil]; rfl
  | cons hc _ ih =>
    rw [createSortableArray_cons_ok rnd _ _ acc _ _ hc, ih]
    simp

theorem createSortableArray_ok (rnd : ℚ → ℚ) (array : List Color)
    (rs : List (ColorObject × List NumError))
    (h : List.Forall₂ (fun c r => createColor rnd c = .ok r) array rs) :
    createSortableArray rnd array = .ok (rs.map Prod.fst, (rs.map Prod.snd).flatten) := by
  unfold createSortableArray
  rw [createSortableArray_fold rnd array rs h]
  simp

/-- A record whose hex string is shorter than seven bytes makes the whole loop stop with
the run-time error. -/
theorem createSortableArray_short (rnd : ℚ → ℚ) (array : List Color)
    (h : ∃ c ∈ array, c.Color.length < 7) (acc : List ColorObject × List NumError) :
    array.foldlM
      (fun (acc : List ColorObject × List NumError) color => do
        let (obj, printed) ← createColor rnd color
        pure (acc.1 ++ [obj], acc.2 ++ printed)) acc
    = .error .sliceBoundsOutOfRange := by
  induction array generalizing acc with
  | nil =>
    obtain ⟨c, hc, _⟩ := h
    cases hc
  | cons d rest ih =>
    by_cases hd : d.Color.length < 7
    · exact createSortableArray_cons_error rnd d rest acc _ (createColor_short rnd d hd)
    · obtain ⟨a0, a1, a2, a3, a4, a5, a6, tl, hs⟩ := exists_seven d.Color (by omega)
      rw [createSortableArray_cons_ok rnd d rest acc _ _
        (createColor_cons rnd d a0 a1 a2 a3 a4 a5 a6 tl hs)]
      apply ih
      obtain ⟨c, hc, hlen⟩ := h
      rcases List.mem_cons.mp hc with rfl | hmem
      · exact absurd hlen hd
      · exact ⟨c, hmem, hlen⟩

theorem forall₂_getElem? {α β : Type} (P : α → β → Prop) (xs : List α) (ys : List β)
    (h : List.Forall₂ P xs ys) (i : Nat) (x : α) (hx : xs[i]? = some x) :
    ∃ y, ys[i]? = some y ∧ P x y := by
  induction h generalizing i with
  | nil => simp at hx
  | cons hp _ ih =>
    cases i with
    | zero =>
      simp only [List.getElem?_cons_zero, Option.some.injEq] at hx
      subst hx
      exact ⟨_, by simp, hp⟩
    | succ j =>
      simp only [List.getElem?_cons_succ] at hx ⊢
      exact ih j hx

theorem forall₂_of_forall_exists {α β : Type} (P : α → β → Prop) (xs : List α)
    (h : ∀ x ∈ xs, ∃ y, P x y) : ∃ ys, List.Forall₂ P xs ys := by
  induction xs with
  | nil => exact ⟨[], List.Forall₂.nil⟩
  | cons x rest ih =>
    obtain ⟨y, hy⟩ := h x (List.mem_cons_self _ _)
    obtain ⟨ys, hys⟩ := ih (fun z hz => h z (List.mem_cons_of_mem _ hz))
    exact ⟨y :: ys, List.Forall₂.cons hy hys⟩

theorem getElem?_append_cons {α : Type} (pre post : List α) (c : α) :
    (pre ++ c :: post)[pre.length]? = some c := by
  induction pre with
  | nil => simp
  | cons _ _ ih => simpa using ih

/-! ## What createColor prints and returns in its channels -/

/-- What `createColor` prints is the error of the third parse alone: the errors of the
red and green substrings never reach the test of line 79. -/
theorem createColor_printed (rnd : ℚ → ℚ) (c : Color) (o : ColorObject)
    (printed : List NumError) (h : createColor rnd c = .ok (o, printed)) :
    printed = match channelError c.Color 5 with
      | some e => [e]
      | none => [] := by
  have h7 : 7 ≤ c.Color.length := by
    by_contra hlt
    rw [createColor_short rnd c (by omega)] at h
    cases h
  obtain ⟨a0, a1, a2, a3, a4, a5, a6, tl, hs⟩ := exists_seven c.Color h7
  rw [createColor_cons rnd c a0 a1 a2 a3 a4 a5 a6 tl hs] at h
  have e5 : channelError c.Color 5 = (ParseInt [a5, a6]).2 := by simp [channelError, hs]
  rw [e5]
  cases h
  rfl

theorem createColor_channels (rnd : ℚ → ℚ) (c : Color) (o : ColorObject)
    (printed : List NumError) (h : createColor rnd c = .ok (o, printed)) :
    o.Red = channel c.Color 1 ∧ o.Green = channel c.Color 3 ∧ o.Blue = channel c.Color 5 := by
  have h7 : 7 ≤ c.Color.length := by
    by_contra hlt
    rw [createColor_short rnd c (by omega)] at h
    cases h
  obtain ⟨a0, a1, a2, a3, a4, a5, a6, tl, hs⟩ := exists_seven c.Color h7
  rw [createColor_cons rnd c a0 a1 a2 a3 a4 a5 a6 tl hs] at h
  have i16 : ∀ x y : Byte, int16 (ParseInt [x, y]).1 = (ParseInt [x, y]).1 := by
    intro x y
    obtain ⟨h1, h2⟩ := ParseInt_two_range x y
    exact int16_of_small _ (by omega) (by omega)
  have c1 : channel c.Color 1 = (ParseInt [a1, a2]).1 := by simp [channel, hs]
  have c3 : channel c.Color 3 = (ParseInt [a3, a4]).1 := by simp [channel, hs]
  have c5 : channel c.Color 5 = (ParseInt [a5, a6]).1 := by simp [channel, hs]
  cases h
  rw [c1, c3, c5]
  exact ⟨i16 a1 a2, i16 a3 a4, i16 a5 a6⟩

/-! ## binary64 rounding -/

/-- Sample values of the rounding: the doubles nearest to 0.3 and to a third, and two ties
between neighbouring 53 bit integers, which go to the even one. -/
theorem binary64_samples :
    binary64 (3 / 10) = 5404319552844595 / 18014398509481984 ∧
    binary64 (1 / 3) = 6004799503160661 / 18014398509481984 ∧
    binary64 (-1 / 3) = -6004799503160661 / 18014398509481984 ∧
    binary64 9007199254740993 = 9007199254740992 ∧
    binary64 9007199254740995 = 9007199254740996 ∧
    binary64 255 = 255 := by
  refine ⟨by decide!, by decide!, by decide!, by decide!, by decide!, by decide!⟩

theorem binary64_zero : binary64 0 = 0 := by
  decide!

theorem binary64_channel_unit_fin : ∀ R : Fin 256,
    0 ≤ binary64 (binary64 ((R.val : Int) : ℚ) / 255) ∧
    binary64 (binary64 ((R.val : Int) : ℚ) / 255) ≤ 1 := by
  decide!

theorem binary64_channel_unit (R : Nat) (h : R ≤ 255) :
    0 ≤ binary64 (binary64 ((R : Int) : ℚ) / 255) ∧
    binary64 (binary64 ((R : Int) : ℚ) / 255) ≤ 1 :=
  binary64_channel_unit_fin ⟨R, by omega⟩

theorem binary64_nonneg (q : ℚ) (h : 0 ≤ q) : 0 ≤ binary64 q := by
  unfold binary64
  by_cases h0 : q = 0
  · rw [if_pos h0]
  · have hnum : ¬ q.num < 0 := not_lt.mpr (Rat.num_nonneg.mpr h)
    rw [if_neg h0]
    dsimp only
    rw [if_neg hnum]
    apply Rat.mkRat_nonneg
    apply mul_nonneg (Int.natCast_nonneg _)
    exact pow_nonneg (by norm_num) _

/-- With three equal channels whose normalised value lies in `[0, 1]`, and a rounding
that keeps 0, the chroma, saturation and hue are 0 and the value is the common
normalised channel. -/
theorem derive_achromatic (rnd : ℚ → ℚ) (h0 : rnd 0 = 0) (c : Color) (R : Int)
    (hv0 : 0 ≤ rnd (rnd R / 255)) (hv1 : rnd (rnd R / 255) ≤ 1) :
    (createColor.derive rnd c R R R).Chroma = 0 ∧ (createColor.derive rnd c R R R).Sat = 0 ∧
    (createColor.derive rnd c R R R).Hue = 0 ∧
    (createColor.derive rnd c R R R).Val = rnd (rnd R / 255) ∧
    (createColor.derive rnd c R R R).Luma =
      rnd (rnd (rnd (rnd (3 / 10) * rnd (rnd R / 255))
          + rnd (rnd (59 / 100) * rnd (rnd R / 255)))
        + rnd (rnd (11 / 100) * rnd (rnd R / 255))) := by
  simp only [createColor.derive, scan_unit _ _ _ hv0 hv1, min3, max3, min_self, max_self,
    sub_self, h0, zero_div, ite_self, gt_iff_lt, lt_self_iff_false, if_false, and_self]

/-! ## In exact arithmetic

The Go code computes in `float64`; the two statements below idealise it to the rationals,
where the formulas of the specification can be read as they are written. -/

/-- With no rounding at all, on a valid hex string `Chroma` is the difference of the
maximum and minimum of the three channels divided by 255, `Val` the maximum, and `Sat` is
0 when `Val = 0` and `Chroma / Val` otherwise. -/
theorem chroma_val_sat_exact (c : Color) (h : validHex c.Color = true) :
    ∃ o, createColor exactly c = .ok (o, []) ∧
      [normalized o.Red, normalized o.Green, normalized o.Blue].foldl scanStep (1, 0)
        = (min3 (normalized o.Red) (normalized o.Green) (normalized o.Blue),
           max3 (normalized o.Red) (normalized o.Green) (normalized o.Blue)) ∧
      o.Chroma = max3 (normalized o.Red) (normalized o.Green) (normalized o.Blue)
        - min3 (normalized o.Red) (normalized o.Green) (normalized o.Blue) ∧
      o.Val = max3 (normalized o.Red) (normalized o.Green) (normalized o.Blue) ∧
      o.Sat = if o.Val = 0 then 0 else o.Chroma / o.Val := by
  obtain ⟨R, G, B, hR, hG, hB, hok, _⟩ := createColor_valid exactly c h
  refine ⟨_, hok, ?_⟩
  have eR : (createColor.derive exactly c R G B).Red = R := int16_of_small _ (by omega) (by omega)
  have eG : (createColor.derive exactly c R G B).Green = G :=
    int16_of_small _ (by omega) (by omega)
  have eB : (createColor.derive exactly c R G B).Blue = B :=
    int16_of_small _ (by omega) (by omega)
  obtain ⟨hx0, hx1⟩ := channel_unit R hR
  obtain ⟨hy0, hy1⟩ := channel_unit G hG
  obtain ⟨hz0, hz1⟩ := channel_unit B hB
  simp only [normalized, eR, eG, eB]
  simp only [createColor.derive, exactly, scan_unit _ _ _ hx0 hx1]
  obtain ⟨hM1, _, _⟩ := le_max3 (((R : Int) : ℚ) / 255) (((G : Int) : ℚ) / 255)
    (((B : Int) : ℚ) / 255)
  refine ⟨trivial, trivial, trivial, ?_⟩
  by_cases hmx : max3 (((R : Int) : ℚ) / 255) (((G : Int) : ℚ) / 255) (((B : Int) : ℚ) / 255) = 0
  · rw [if_pos hmx, if_neg]
    rw [hmx]
    exact lt_irrefl _
  · rw [if_neg hmx, if_pos]
    exact lt_of_le_of_ne (le_trans hx0 hM1) (Ne.symm hmx)

/-- With no rounding at all, on a valid hex string `Hue` is the hue function of the
specification applied to the three channels divided by 255. -/
theorem hue_exact_eq_specHue (c : Color) (h : validHex c.Color = true) :
    ∃ o, createColor exactly c = .ok (o, []) ∧
      o.Hue = specHue (normalized o.Red) (normalized o.Green) (normalized o.Blue) := by
  obtain ⟨R, G, B, hR, hG, hB, hok, _⟩ := createColor_valid exactly c h
  refine ⟨_, hok, ?_⟩
  have eR : (createColor.derive exactly c R G B).Red = R := int16_of_small _ (by omega) (by omega)
  have eG : (createColor.derive exactly c R G B).Green = G :=
    int16_of_small _ (by omega) (by omega)
  have eB : (createColor.derive exactly c R G B).Blue = B :=
    int16_of_small _ (by omega) (by omega)
  obtain ⟨hx0, hx1⟩ := channel_unit R hR
  simp only [normalized, eR, eG, eB, specHue]
  simp only [createColor.derive, exactly, scan_unit _ _ _ hx0 hx1]
  obtain ⟨hM1, _, _⟩ := le_max3 (((R : Int) : ℚ) / 255) (((G : Int) : ℚ) / 255)
    (((B : Int) : ℚ) / 255)
  obtain ⟨hm1, _, _⟩ := min3_le (((R : Int) : ℚ) / 255) (((G : Int) : ℚ) / 255)
    (((B : Int) : ℚ) / 255)
  generalize min3 (((R : Int) : ℚ) / 255) (((G : Int) : ℚ) / 255) (((B : Int) : ℚ) / 255) = mn
    at *
  generalize max3 (((R : Int) : ℚ) / 255) (((G : Int) : ℚ) / 255) (((B : Int) : ℚ) / 255) = mx
    at *
  generalize ((R : Int) : ℚ) / 255 = x at *
  generalize ((G : Int) : ℚ) / 255 = y at *
  generalize ((B : Int) : ℚ) / 255 = z at *
  by_cases hpos : mx > 0
  · have hne : mx ≠ 0 := ne_of_gt hpos
    have hs0 : 0 ≤ (mx - mn) / mx := div_nonneg (by linarith) (le_of_lt hpos)
    rw [if_pos hpos, if_pos hpos, if_neg hne]
    by_cases hs : (mx - mn) / mx > 0
    · rw [if_pos hs, if_neg (ne_of_gt hs)]
      simp only [mul_div_assoc]
    · have : (mx - mn) / mx = 0 := le_antisymm (not_lt.mp hs) hs0
      rw [if_neg hs, if_pos this]
  · have hz : mx = 0 := le_antisymm (not_lt.mp hpos) (le_trans hx0 hM1)
    rw [if_neg hpos, if_pos hz, if_pos rfl]

/-- The scan relies on the channels lying in `[0, 1]`: on `#-F-F-F`, where every channel is
-15, the three normalised channels are negative, `max` never leaves its start value 0 and
`Val = 0` is returned, which is not the maximum of the three. -/
theorem scan_needs_unit_range :
    (returned (createColor binary64 (ofHex "#-F-F-F"))).map (fun o => (o.Red, o.Green, o.Blue))
      = some (-15, -15, -15) ∧
    normalizedWith binary64 (-15) < 0 ∧
    (returned (createColor binary64 (ofHex "#-F-F-F"))).map (fun o => o.Val) = some 0 := by
  refine ⟨by decide!, by decide!, by decide!⟩

/-! ## The claims -/

/-- C1, as the code has it: for every colour record whose hex string does not match `#`
and six hexadecimal digits, `createColor` has no error result.  A string shorter than 7
bytes stops it, and `createSortableArray` on any batch containing the record, with the
slice-out-of-range run-time error.  Otherwise it returns an object in which each channel
is the value `strconv.ParseInt` returns for its two bytes, which is 0 when the parser
rejects them, and `createSortableArray` on a batch whose strings all have at least 7 bytes
returns that object, untagged, at the record's position. -/
theorem C1_invalid_hex_returns_object (rnd : ℚ → ℚ) (c : Color)
    (hinvalid : validHex c.Color = false) :
    (c.Color.length < 7 →
      createColor rnd c = .error .sliceBoundsOutOfRange ∧
      ∀ pre post : List Color,
        createSortableArray rnd (pre ++ c :: post) = .error .sliceBoundsOutOfRange) ∧
    (7 ≤ c.Color.length →
      ∃ o printed, createColor rnd c = .ok (o, printed) ∧
        o.Red = channel c.Color 1 ∧ o.Green = channel c.Color 3 ∧
        o.Blue = channel c.Color 5 ∧
        (channelError c.Color 1 ≠ none → o.Red = 0) ∧
        (channelError c.Color 3 ≠ none → o.Green = 0) ∧
        (channelError c.Color 5 ≠ none → o.Blue = 0) ∧
        ∀ pre post : List Color, (∀ d ∈ pre ++ post, 7 ≤ d.Color.length) →
          ∃ objs printedAll,
            createSortableArray rnd (pre ++ c :: post) = .ok (objs, printedAll) ∧
            objs.length = pre.length + 1 + post.length ∧
            objs[pre.length]? = some o) := by
  constructor
  · intro hlt
    refine ⟨createColor_short rnd c hlt, fun pre post => ?_⟩
    exact createSortableArray_short rnd _ ⟨c, by simp, hlt⟩ _
  · intro h7
    obtain ⟨a0, a1, a2, a3, a4, a5, a6, tl, hs⟩ := exists_seven c.Color h7
    have hok := createColor_cons rnd c a0 a1 a2 a3 a4 a5 a6 tl hs
    have i16 : ∀ x y : Byte, int16 (ParseInt [x, y]).1 = (ParseInt [x, y]).1 := by
      intro x y
      obtain ⟨h1, h2⟩ := ParseInt_two_range x y
      exact int16_of_small _ (by omega) (by omega)
    have c1 : channel c.Color 1 = (ParseInt [a1, a2]).1 := by simp [channel, hs]
    have c3 : channel c.Color 3 = (ParseInt [a3, a4]).1 := by simp [channel, hs]
    have c5 : channel c.Color 5 = (ParseInt [a5, a6]).1 := by simp [channel, hs]
    have e1 : channelError c.Color 1 = (ParseInt [a1, a2]).2 := by simp [channelError, hs]
    have e3 : channelError c.Color 3 = (ParseInt [a3, a4]).2 := by simp [channelError, hs]
    have e5 : channelError c.Color 5 = (ParseInt [a5, a6]).2 := by simp [channelError, hs]
    refine ⟨_, _, hok, ?_, ?_, ?_, ?_, ?_, ?_, ?_⟩
    · rw [c1]; exact i16 a1 a2
    · rw [c3]; exact i16 a3 a4
    · rw [c5]; exact i16 a5 a6
    · intro he
      rw [e1] at he
      show int16 (ParseInt [a1, a2]).1 = 0
      rw [ParseInt_two_error a1 a2 he]
      rfl
    · intro he
      rw [e3] at he
      show int16 (ParseInt [a3, a4]).1 = 0
      rw [ParseInt_two_error a3 a4 he]
      rfl
    · intro he
      rw [e5] at he
      show int16 (ParseInt [a5, a6]).1 = 0
      rw [ParseInt_two_error a5 a6 he]
      rfl
    · intro pre post hall
      have hex : ∀ d ∈ pre ++ c :: post, ∃ r, createColor rnd d = .ok r := by
        intro d hd
        have hd7 : 7 ≤ d.Color.length := by
          rcases List.mem_append.mp hd with h1 | h1
          · exact hall d (List.mem_append_left _ h1)
          · rcases List.mem_cons.mp h1 with rfl | h2
            · exact h7
            · exact hall d (List.mem_append_right _ h2)
        obtain ⟨b0, b1, b2, b3, b4, b5, b6, tl2, hs2⟩ := exists_seven d.Color hd7
        exact ⟨_, createColor_cons rnd d b0 b1 b2 b3 b4 b5 b6 tl2 hs2⟩
      obtain ⟨rs, hrs⟩ := forall₂_of_forall_exists _ _ hex
      refine ⟨_, _, createSortableArray_ok rnd _ rs hrs, ?_, ?_⟩
      · rw [List.length_map, ← hrs.length_eq]
        simp
        omega
      · obtain ⟨r, hr, hc⟩ := forall₂_getElem? _ _ rs hrs pre.length c
          (getElem?_append_cons pre post c)
        rw [hok] at hc
        cases hc
        simp [hr]

/-- C1, as the code has it, at the record `#ZZZZZZ` in binary64 arithmetic. -/
theorem C1_witness :
    validHex (ofHex "#ZZZZZZ").Color = false ∧
    ((ofHex "#ZZZZZZ").Color.length < 7 →
      createColor binary64 (ofHex "#ZZZZZZ") = .error .sliceBoundsOutOfRange ∧
      ∀ pre post : List Color,
        createSortableArray binary64 (pre ++ ofHex "#ZZZZZZ" :: post)
          = .error .sliceBoundsOutOfRange) ∧
    (7 ≤ (ofHex "#ZZZZZZ").Color.length →
      ∃ o printed, createColor binary64 (ofHex "#ZZZZZZ") = .ok (o, printed) ∧
        o.Red = channel (ofHex "#ZZZZZZ").Color 1 ∧
        o.Green = channel (ofHex "#ZZZZZZ").Color 3 ∧
        o.Blue = channel (ofHex "#ZZZZZZ").Color 5 ∧
        (channelError (ofHex "#ZZZZZZ").Color 1 ≠ none → o.Red = 0) ∧
        (channelError (ofHex "#ZZZZZZ").Color 3 ≠ none → o.Green = 0) ∧
        (channelError (ofHex "#ZZZZZZ").Color 5 ≠ none → o.Blue = 0) ∧
        ∀ pre post : List Color, (∀ d ∈ pre ++ post, 7 ≤ d.Color.length) →
          ∃ objs printedAll,
            createSortableArray binary64 (pre ++ ofHex "#ZZZZZZ" :: post)
              = .ok (objs, printedAll) ∧
            objs.length = pre.length + 1 + post.length ∧
            objs[pre.length]? = some o) :=
  ⟨by decide, C1_invalid_hex_returns_object binary64 (ofHex "#ZZZZZZ") (by decide)⟩

/-- C1 as stated fails: `#ZZZZ00` and `#ZZZZZZ` do not match the pattern, yet `createColor`
returns an object whose three channels are 0, with nothing printed for the first and
the third substring's error printed for the second, and `createSortableArray` passes the
object on untagged. -/
theorem C1_counterexample :
    validHex (ofHex "#ZZZZ00").Color = false ∧ validHex (ofHex "#ZZZZZZ").Color = false ∧
    (∀ rnd : ℚ → ℚ, ∃ o, createColor rnd (ofHex "#ZZZZ00") = .ok (o, []) ∧
      o.Red = 0 ∧ o.Green = 0 ∧ o.Blue = 0 ∧
      createSortableArray rnd [ofHex "#ZZZZ00"] = .ok ([o], [])) ∧
    (∀ rnd : ℚ → ℚ, ∃ o e, createColor rnd (ofHex "#ZZZZZZ") = .ok (o, [e]) ∧
      o.Red = 0 ∧ o.Green = 0 ∧ o.Blue = 0 ∧
      createSortableArray rnd [ofHex "#ZZZZZZ"] = .ok ([o], [e])) := by
  refine ⟨by decide, by decide, fun rnd => ⟨_, rfl, rfl, rfl, rfl, rfl⟩,
    fun rnd => ⟨_, _, rfl, rfl, rfl, rfl, rfl⟩⟩

/-- C2 fails on the code: in `#ZZ0000` the red substring `ZZ` is rejected by the parser
and the blue substring `00` is accepted, and `createColor` returns an object with
`Red = 0` and prints nothing, so the failure of the red parse is masked; the same holds
for a rejected green substring, as in `#00ZZ00`. -/
theorem C2_red_failure_masked :
    7 ≤ (ofHex "#ZZ0000").Color.length ∧
    channelError (ofHex "#ZZ0000").Color 1
      = some ⟨"ParseInt", lit "ZZ", .ErrSyntax⟩ ∧
    channelError (ofHex "#ZZ0000").Color 5 = none ∧
    (∀ rnd : ℚ → ℚ, ∃ o, createColor rnd (ofHex "#ZZ0000") = .ok (o, []) ∧ o.Red = 0) ∧
    channelError (ofHex "#00ZZ00").Color 3
      = some ⟨"ParseInt", lit "ZZ", .ErrSyntax⟩ ∧
    (∀ rnd : ℚ → ℚ, ∃ o, createColor rnd (ofHex "#00ZZ00") = .ok (o, []) ∧ o.Green = 0) := by
  refine ⟨by decide, by decide, by decide, fun rnd => ⟨_, rfl, rfl⟩, by decide,
    fun rnd => ⟨_, rfl, rfl⟩⟩

/-- C3: for every sequence of colour records with valid hex strings, `createSortableArray`
returns a sequence of the same length whose i-th element is what `createColor` returns
for the i-th record, in input order; the empty sequence yields the empty sequence. -/
theorem C3_createSortableArray_is_map (rnd : ℚ → ℚ) (array : List Color)
    (h : ∀ c ∈ array, validHex c.Color = true) :
    (∃ objs : List ColorObject,
      createSortableArray rnd array = .ok (objs, []) ∧
      objs.length = array.length ∧
      ∀ (i : Nat) (c : Color), array[i]? = some c →
        ∃ o, objs[i]? = some o ∧ createColor rnd c = .ok (o, [])) ∧
    createSortableArray rnd [] = .ok ([], []) := by
  refine ⟨?_, rfl⟩
  have hall : ∀ c ∈ array, ∃ r, createColor rnd c = .ok r ∧ r.2 = [] := by
    intro c hc
    obtain ⟨R, G, B, _, _, _, hok, _⟩ := createColor_valid rnd c (h c hc)
    exact ⟨_, hok, rfl⟩
  obtain ⟨rs, hrs⟩ := forall₂_of_forall_exists _ array hall
  have hnil : (rs.map Prod.snd).flatten = [] := by
    clear hall h
    induction hrs with
    | nil => rfl
    | cons hp _ ih => simp [hp.2, ih]
  refine ⟨rs.map Prod.fst, ?_, ?_, ?_⟩
  · rw [createSortableArray_ok rnd array rs (hrs.imp (fun _ _ hp => hp.1)), hnil]
  · rw [List.length_map, hrs.length_eq]
  · intro i c hi
    obtain ⟨r, hr, hc, hp⟩ := forall₂_getElem? _ array rs hrs i c hi
    refine ⟨r.1, by simp [hr], ?_⟩
    rw [hc]
    congr 1
    exact Prod.ext rfl hp

/-- C3 at the two-record batch `#FF0000`, `#00ff7F`. -/
theorem C3_witness :
    (∀ c ∈ [ofHex "#FF0000", ofHex "#00ff7F"], validHex c.Color = true) ∧
    ((∃ objs : List ColorObject,
      createSortableArray exactly [ofHex "#FF0000", ofHex "#00ff7F"] = .ok (objs, []) ∧
      objs.length = [ofHex "#FF0000", ofHex "#00ff7F"].length ∧
      ∀ (i : Nat) (c : Color), [ofHex "#FF0000", ofHex "#00ff7F"][i]? = some c →
        ∃ o, objs[i]? = some o ∧ createColor exactly c = .ok (o, [])) ∧
    createSortableArray exactly [] = .ok ([], [])) :=
  ⟨by decide, C3_createSortableArray_is_map exactly [ofHex "#FF0000", ofHex "#00ff7F"] (by decide)⟩

/-- C4: for every colour record with a valid hex string, and with the channel arithmetic
taken exactly, the object returned by `createColor` has `0 ≤ Hue < 360`, `Sat`, `Val`,
`Chroma` and `Luma` in `[0, 1]`, and `Chroma ≤ Val`. -/
theorem C4_derived_fields_in_range (c : Color) (h : validHex c.Color = true) :
    ∃ o, createColor exactly c = .ok (o, []) ∧
      0 ≤ o.Hue ∧ o.Hue < 360 ∧ 0 ≤ o.Sat ∧ o.Sat ≤ 1 ∧ 0 ≤ o.Val ∧ o.Val ≤ 1 ∧
      0 ≤ o.Chroma ∧ o.Chroma ≤ 1 ∧ 0 ≤ o.Luma ∧ o.Luma ≤ 1 ∧ o.Chroma ≤ o.Val := by
  obtain ⟨R, G, B, hR, hG, hB, hok, _⟩ := createColor_valid exactly c h
  exact ⟨_, hok, derive_bounds c R G B hR hG hB⟩

/-- C4 at the record `#12ab9F`. -/
theorem C4_witness :
    validHex (ofHex "#12ab9F").Color = true ∧
    ∃ o, createColor exactly (ofHex "#12ab9F") = .ok (o, []) ∧
      0 ≤ o.Hue ∧ o.Hue < 360 ∧ 0 ≤ o.Sat ∧ o.Sat ≤ 1 ∧ 0 ≤ o.Val ∧ o.Val ≤ 1 ∧
      0 ≤ o.Chroma ∧ o.Chroma ≤ 1 ∧ 0 ≤ o.Luma ∧ o.Luma ≤ 1 ∧ o.Chroma ≤ o.Val :=
  ⟨by decide, C4_derived_fields_in_range (ofHex "#12ab9F") (by decide)⟩

/-- C5: for every hex string that is `#` followed by six hexadecimal digits of either
case, the `Red`, `Green` and `Blue` fields returned by `createColor` lie in `[0, 255]`, and
`#` followed by the three fields, each written as two upper-case hexadecimal digits, is
the input string with its letters upper-cased. -/
theorem C5_channels_round_trip (rnd : ℚ → ℚ) (c : Color) (h : validHex c.Color = true) :
    ∃ o, createColor rnd c = .ok (o, []) ∧
      0 ≤ o.Red ∧ o.Red ≤ 255 ∧ 0 ≤ o.Green ∧ o.Green ≤ 255 ∧ 0 ≤ o.Blue ∧ o.Blue ≤ 255 ∧
      (35 : Byte) :: (encodeHex2 o.Red ++ encodeHex2 o.Green ++ encodeHex2 o.Blue)
        = c.Color.map toUpper := by
  obtain ⟨R, G, B, hR, hG, hB, hok, henc⟩ := createColor_valid rnd c h
  refine ⟨_, hok, ?_⟩
  have eR : (createColor.derive rnd c R G B).Red = R := int16_of_small _ (by omega) (by omega)
  have eG : (createColor.derive rnd c R G B).Green = G :=
    int16_of_small _ (by omega) (by omega)
  have eB : (createColor.derive rnd c R G B).Blue = B :=
    int16_of_small _ (by omega) (by omega)
  rw [eR, eG, eB]
  exact ⟨by omega, by omega, by omega, by omega, by omega, by omega, henc⟩

/-- C5 at the mixed-case record `#12ab9F`. -/
theorem C5_witness :
    validHex (ofHex "#12ab9F").Color = true ∧
    ∃ o, createColor binary64 (ofHex "#12ab9F") = .ok (o, []) ∧
      0 ≤ o.Red ∧ o.Red ≤ 255 ∧ 0 ≤ o.Green ∧ o.Green ≤ 255 ∧ 0 ≤ o.Blue ∧ o.Blue ≤ 255 ∧
      (35 : Byte) :: (encodeHex2 o.Red ++ encodeHex2 o.Green ++ encodeHex2 o.Blue)
        = (ofHex "#12ab9F").Color.map toUpper :=
  ⟨by decide, C5_channels_round_trip binary64 (ofHex "#12ab9F") (by decide)⟩

/-- C6: for every colour record with a valid hex string, with `r`, `g`, `b` the channels
converted to `float64` and divided by 255, `createColor` returns
`Chroma = max(r,g,b) - min(r,g,b)`, `Val = max(r,g,b)`, and `Sat = 0` when `Val = 0` and
`Chroma / Val` otherwise, the subtraction and the division being those of the code, each
rounded to `float64`; the scan started from `min = 1`, `max = 0` ends in the true minimum
and maximum of the three normalised channels.  Proved for binary64 arithmetic, which is
what the Go code computes, and for exact arithmetic. -/
theorem C6_chroma_val_sat (rnd : ℚ → ℚ) (hrnd : rnd = exactly ∨ rnd = binary64)
    (c : Color) (h : validHex c.Color = true) :
    ∃ o, createColor rnd c = .ok (o, []) ∧
      [normalizedWith rnd o.Red, normalizedWith rnd o.Green,
          normalizedWith rnd o.Blue].foldl scanStep (1, 0)
        = (min3 (normalizedWith rnd o.Red) (normalizedWith rnd o.Green)
              (normalizedWith rnd o.Blue),
           max3 (normalizedWith rnd o.Red) (normalizedWith rnd o.Green)
              (normalizedWith rnd o.Blue)) ∧
      o.Chroma = rnd (max3 (normalizedWith rnd o.Red) (normalizedWith rnd o.Green)
            (normalizedWith rnd o.Blue)
          - min3 (normalizedWith rnd o.Red) (normalizedWith rnd o.Green)
            (normalizedWith rnd o.Blue)) ∧
      o.Val = max3 (normalizedWith rnd o.Red) (normalizedWith rnd o.Green)
          (normalizedWith rnd o.Blue) ∧
      o.Sat = if o.Val = 0 then 0 else rnd (o.Chroma / o.Val) := by
  obtain ⟨R, G, B, hR, hG, hB, hok, _⟩ := createColor_valid rnd c h
  refine ⟨_, hok, ?_⟩
  have eR : (createColor.derive rnd c R G B).Red = R := int16_of_small _ (by omega) (by omega)
  have eG : (createColor.derive rnd c R G B).Green = G :=
    int16_of_small _ (by omega) (by omega)
  have eB : (createColor.derive rnd c R G B).Blue = B :=
    int16_of_small _ (by omega) (by omega)
  have hx : 0 ≤ rnd (rnd ((R : Int) : ℚ) / 255) ∧ rnd (rnd ((R : Int) : ℚ) / 255) ≤ 1 := by
    rcases hrnd with rfl | rfl
    · exact channel_unit R hR
    · exact binary64_channel_unit R hR
  simp only [normalizedWith, eR, eG, eB]
  simp only [createColor.derive, scan_unit _ _ _ hx.1 hx.2]
  obtain ⟨hM1, _, _⟩ := le_max3 (rnd (rnd ((R : Int) : ℚ) / 255))
    (rnd (rnd ((G : Int) : ℚ) / 255)) (rnd (rnd ((B : Int) : ℚ) / 255))
  refine ⟨trivial, trivial, trivial, ?_⟩
  by_cases hmx : max3 (rnd (rnd ((R : Int) : ℚ) / 255))
    (rnd (rnd ((G : Int) : ℚ) / 255)) (rnd (rnd ((B : Int) : ℚ) / 255)) = 0
  · rw [if_pos hmx, if_neg]
    rw [hmx]
    exact lt_irrefl _
  · rw [if_neg hmx, if_pos]
    exact lt_of_le_of_ne (le_trans hx.1 hM1) (Ne.symm hmx)

/-- C6 at the record `#336699` in binary64 arithmetic. -/
theorem C6_witness :
    (binary64 = exactly ∨ binary64 = binary64) ∧
    validHex (ofHex "#336699").Color = true ∧
    ∃ o, createColor binary64 (ofHex "#336699") = .ok (o, []) ∧
      [normalizedWith binary64 o.Red, normalizedWith binary64 o.Green,
          normalizedWith binary64 o.Blue].foldl scanStep (1, 0)
        = (min3 (normalizedWith binary64 o.Red) (normalizedWith binary64 o.Green)
              (normalizedWith binary64 o.Blue),
           max3 (normalizedWith binary64 o.Red) (normalizedWith binary64 o.Green)
              (normalizedWith binary64 o.Blue)) ∧
      o.Chroma = binary64 (max3 (normalizedWith binary64 o.Red) (normalizedWith binary64 o.Green)
            (normalizedWith binary64 o.Blue)
          - min3 (normalizedWith binary64 o.Red) (normalizedWith binary64 o.Green)
            (normalizedWith binary64 o.Blue)) ∧
      o.Val = max3 (normalizedWith binary64 o.Red) (normalizedWith binary64 o.Green)
          (normalizedWith binary64 o.Blue) ∧
      o.Sat = if o.Val = 0 then 0 else binary64 (o.Chroma / o.Val) :=
  ⟨Or.inr rfl, by decide,
    C6_chroma_val_sat binary64 (Or.inr rfl) (ofHex "#336699") (by decide)⟩

/-- C7: for every colour record with a valid hex string, with `r`, `g`, `b` the channels
converted to `float64` and divided by 255 and `min`, `max` their minimum and maximum, the
`Hue` returned by `createColor` is 0 when `Sat = 0`; otherwise it is given by the first
matching branch in the fixed order red, green, blue: if `r = max` it is
`60 * (((g - min) - (b - min)) / chroma)`, plus 360 when that is negative; else if
`g = max` it is `120 + 60 * (((b - min) - (r - min)) / chroma)`; else `b = max` and it is
`240 + 60 * (((r - min) - (g - min)) / chroma)`.  The operations are grouped as in the code
and in section 4.4 of the specification, and each one is rounded to `float64` on its own
(no fused multiply-add, as in the default amd64 build).  So a tie for the maximum takes the
earlier branch: `#FFFF00`, where red and green tie, takes the red branch and gives 60;
`#FF0000` gives 0, `#00FF00` gives 120 and `#0000FF` gives 240.  Proved for binary64
arithmetic, which is what the Go code computes, and for exact arithmetic. -/
theorem C7_hue_branches (rnd : ℚ → ℚ) (hrnd : rnd = exactly ∨ rnd = binary64)
    (c : Color) (h : validHex c.Color = true) :
    (∃ o r g b mn mx, createColor rnd c = .ok (o, []) ∧
      r = normalizedWith rnd o.Red ∧ g = normalizedWith rnd o.Green ∧
      b = normalizedWith rnd o.Blue ∧ mn = min3 r g b ∧ mx = max3 r g b ∧
      (o.Sat = 0 → o.Hue = 0) ∧
      (o.Sat ≠ 0 → r = mx →
        o.Hue =
          if rnd (60 * rnd (rnd (rnd (g - mn) - rnd (b - mn)) / o.Chroma)) < 0
          then rnd (rnd (60 * rnd (rnd (rnd (g - mn) - rnd (b - mn)) / o.Chroma)) + 360)
          else rnd (60 * rnd (rnd (rnd (g - mn) - rnd (b - mn)) / o.Chroma))) ∧
      (o.Sat ≠ 0 → r ≠ mx → g = mx →
        o.Hue = rnd (120 + rnd (60 * rnd (rnd (rnd (b - mn) - rnd (r - mn)) / o.Chroma)))) ∧
      (o.Sat ≠ 0 → r ≠ mx → g ≠ mx →
        b = mx ∧
        o.Hue = rnd (240 + rnd (60 * rnd (rnd (rnd (r - mn) - rnd (g - mn)) / o.Chroma))))) ∧
    (returned (createColor binary64 (ofHex "#FFFF00"))).map (fun o => o.Hue) = some 60 ∧
    (returned (createColor binary64 (ofHex "#FF0000"))).map (fun o => o.Hue) = some 0 ∧
    (returned (createColor binary64 (ofHex "#00FF00"))).map (fun o => o.Hue) = some 120 ∧
    (returned (createColor binary64 (ofHex "#0000FF"))).map (fun o => o.Hue) = some 240 ∧
    (returned (createColor exactly (ofHex "#FFFF00"))).map (fun o => o.Hue) = some 60 ∧
    (returned (createColor exactly (ofHex "#FF0000"))).map (fun o => o.Hue) = some 0 ∧
    (returned (createColor exactly (ofHex "#00FF00"))).map (fun o => o.Hue) = some 120 ∧
    (returned (createColor exactly (ofHex "#0000FF"))).map (fun o => o.Hue) = some 240 := by
  refine ⟨?_, by decide!, by decide!, by decide!, by decide!, by decide!, by decide!,
    by decide!, by decide!⟩
  obtain ⟨R, G, B, hR, hG, hB, hok, _⟩ := createColor_valid rnd c h
  have eR : (createColor.derive rnd c R G B).Red = R := int16_of_small _ (by omega) (by omega)
  have eG : (createColor.derive rnd c R G B).Green = G :=
    int16_of_small _ (by omega) (by omega)
  have eB : (createColor.derive rnd c R G B).Blue = B :=
    int16_of_small _ (by omega) (by omega)
  refine ⟨_, _, _, _, _, _, hok, rfl, rfl, rfl, rfl, rfl, ?_⟩
  have hx : 0 ≤ rnd (rnd ((R : Int) : ℚ) / 255) ∧ rnd (rnd ((R : Int) : ℚ) / 255) ≤ 1 := by
    rcases hrnd with rfl | rfl
    · exact channel_unit R hR
    · exact binary64_channel_unit R hR
  have hnn : ∀ q : ℚ, 0 ≤ q → 0 ≤ rnd q := by
    rcases hrnd with rfl | rfl
    · exact fun q hq => hq
    · exact binary64_nonneg
  simp only [normalizedWith, eR, eG, eB]
  simp only [createColor.derive, scan_unit _ _ _ hx.1 hx.2]
  obtain ⟨hM1, _, _⟩ := le_max3 (rnd (rnd ((R : Int) : ℚ) / 255))
    (rnd (rnd ((G : Int) : ℚ) / 255)) (rnd (rnd ((B : Int) : ℚ) / 255))
  obtain ⟨hm1, _, _⟩ := min3_le (rnd (rnd ((R : Int) : ℚ) / 255))
    (rnd (rnd ((G : Int) : ℚ) / 255)) (rnd (rnd ((B : Int) : ℚ) / 255))
  have hmem := max3_mem (rnd (rnd ((R : Int) : ℚ) / 255))
    (rnd (rnd ((G : Int) : ℚ) / 255)) (rnd (rnd ((B : Int) : ℚ) / 255))
  generalize min3 (rnd (rnd ((R : Int) : ℚ) / 255))
    (rnd (rnd ((G : Int) : ℚ) / 255)) (rnd (rnd ((B : Int) : ℚ) / 255)) = mn at *
  generalize max3 (rnd (rnd ((R : Int) : ℚ) / 255))
    (rnd (rnd ((G : Int) : ℚ) / 255)) (rnd (rnd ((B : Int) : ℚ) / 255)) = mx at *
  generalize rnd (rnd ((R : Int) : ℚ) / 255) = x at *
  generalize rnd (rnd ((G : Int) : ℚ) / 255) = y at *
  generalize rnd (rnd ((B : Int) : ℚ) / 255) = z at *
  have hsat : ∀ (_ : (if mx > 0 then rnd (rnd (mx - mn) / mx) else 0) ≠ 0),
      mx > 0 ∧ (if mx > 0 then rnd (rnd (mx - mn) / mx) else 0) > 0 := by
    intro hs
    by_cases hpos : mx > 0
    · refine ⟨hpos, ?_⟩
      rw [if_pos hpos] at hs ⊢
      exact lt_of_le_of_ne
        (hnn _ (div_nonneg (hnn _ (by linarith)) (le_of_lt hpos))) (Ne.symm hs)
    · rw [if_neg hpos] at hs
      exact absurd rfl hs
  refine ⟨?_, ?_, ?_, ?_⟩
  · intro hs0
    rw [hs0]
    simp
  · intro hs hr
    obtain ⟨h1, h2⟩ := hsat hs
    rw [if_pos h1, if_pos h2, if_pos hr]
  · intro hs hr hg
    obtain ⟨h1, h2⟩ := hsat hs
    rw [if_pos h1, if_pos h2, if_neg hr, if_pos hg]
  · intro hs hr hg
    obtain ⟨h1, h2⟩ := hsat hs
    have hb : z = mx := by
      rcases hmem with h3 | h3 | h3
      · exact absurd h3 hr
      · exact absurd h3 hg
      · exact h3
    rw [if_pos h1, if_pos h2, if_neg hr, if_neg hg, if_pos hb]
    exact ⟨hb, rfl⟩

/-- C7 at the record `#12ab9F` in binary64 arithmetic. -/
theorem C7_witness :
    (binary64 = exactly ∨ binary64 = binary64) ∧
    validHex (ofHex "#12ab9F").Color = true ∧
    (∃ o r g b mn mx, createColor binary64 (ofHex "#12ab9F") = .ok (o, []) ∧
      r = normalizedWith binary64 o.Red ∧ g = normalizedWith binary64 o.Green ∧
      b = normalizedWith binary64 o.Blue ∧ mn = min3 r g b ∧ mx = max3 r g b ∧
      (o.Sat = 0 → o.Hue = 0) ∧
      (o.Sat ≠ 0 → r = mx →
        o.Hue =
          if binary64 (60 * binary64 (binary64 (binary64 (g - mn) - binary64 (b - mn)) / o.Chroma)) < 0
          then binary64 (binary64 (60 * binary64 (binary64 (binary64 (g - mn) - binary64 (b - mn)) / o.Chroma)) + 360)
          else binary64 (60 * binary64 (binary64 (binary64 (g - mn) - binary64 (b - mn)) / o.Chroma))) ∧
      (o.Sat ≠ 0 → r ≠ mx → g = mx →
        o.Hue = binary64 (120 + binary64 (60 * binary64 (binary64 (binary64 (b - mn) - binary64 (r - mn)) / o.Chroma)))) ∧
      (o.Sat ≠ 0 → r ≠ mx → g ≠ mx →
        b = mx ∧
        o.Hue = binary64 (240 + binary64 (60 * binary64 (binary64 (binary64 (r - mn) - binary64 (g - mn)) / o.Chroma))))) ∧
    (returned (createColor binary64 (ofHex "#FFFF00"))).map (fun o => o.Hue) = some 60 ∧
    (returned (createColor binary64 (ofHex "#FF0000"))).map (fun o => o.Hue) = some 0 ∧
    (returned (createColor binary64 (ofHex "#00FF00"))).map (fun o => o.Hue) = some 120 ∧
    (returned (createColor binary64 (ofHex "#0000FF"))).map (fun o => o.Hue) = some 240 ∧
    (returned (createColor exactly (ofHex "#FFFF00"))).map (fun o => o.Hue) = some 60 ∧
    (returned (createColor exactly (ofHex "#FF0000"))).map (fun o => o.Hue) = some 0 ∧
    (returned (createColor exactly (ofHex "#00FF00"))).map (fun o => o.Hue) = some 120 ∧
    (returned (createColor exactly (ofHex "#0000FF"))).map (fun o => o.Hue) = some 240 :=
  ⟨Or.inr rfl, by decide,
    C7_hue_branches binary64 (Or.inr rfl) (ofHex "#12ab9F") (by decide)⟩

/-- C8, as the code has it: for every valid hex string whose three channels are equal,
in exact and in binary64 arithmetic, `createColor` returns `Chroma = 0`, `Sat = 0`,
`Hue = 0` and `Val` equal to the common normalised channel value, and `Luma` is
`0.3*r + 0.59*g + 0.11*b` with each operation rounded; when the arithmetic is exact,
`Luma` equals that common value. -/
theorem C8_achromatic (rnd : ℚ → ℚ) (hrnd : rnd = exactly ∨ rnd = binary64) (c : Color)
    (h : validHex c.Color = true) (hrg : channel c.Color 1 = channel c.Color 3)
    (hgb : channel c.Color 3 = channel c.Color 5) :
    ∃ o, createColor rnd c = .ok (o, []) ∧ o.Red = o.Green ∧ o.Green = o.Blue ∧
      o.Chroma = 0 ∧ o.Sat = 0 ∧ o.Hue = 0 ∧ o.Val = rnd (rnd o.Red / 255) ∧
      o.Luma = rnd (rnd (rnd (rnd (3 / 10) * o.Val) + rnd (rnd (59 / 100) * o.Val))
        + rnd (rnd (11 / 100) * o.Val)) ∧
      (rnd = exactly → o.Val = normalized o.Red ∧ o.Luma = o.Val) := by
  obtain ⟨R, G, B, hR, hG, hB, hok, _⟩ := createColor_valid rnd c h
  obtain ⟨c1, c3, c5⟩ := createColor_channels rnd c _ _ hok
  have eR : (createColor.derive rnd c R G B).Red = R := int16_of_small _ (by omega) (by omega)
  have eG : (createColor.derive rnd c R G B).Green = G :=
    int16_of_small _ (by omega) (by omega)
  have eB : (createColor.derive rnd c R G B).Blue = B :=
    int16_of_small _ (by omega) (by omega)
  have hRG : R = G := by
    have : (R : Int) = G := eR.symm.trans (c1.trans (hrg.trans (c3.symm.trans eG)))
    exact_mod_cast this
  have hGB : G = B := by
    have : (G : Int) = B := eG.symm.trans (c3.trans (hgb.trans (c5.symm.trans eB)))
    exact_mod_cast this
  subst hRG
  subst hGB
  have h0 : rnd 0 = 0 := by
    rcases hrnd with rfl | rfl
    · rfl
    · exact binary64_zero
  have hv : 0 ≤ rnd (rnd ((R : Int) : ℚ) / 255) ∧ rnd (rnd ((R : Int) : ℚ) / 255) ≤ 1 := by
    rcases hrnd with rfl | rfl
    · exact channel_unit R hR
    · exact binary64_channel_unit R hR
  obtain ⟨d1, d2, d3, d4, d5⟩ := derive_achromatic rnd h0 c R hv.1 hv.2
  refine ⟨_, hok, rfl, rfl, d1, d2, d3, ?_, ?_, ?_⟩
  · rw [d4, eR]
  · rw [d5, d4]
  · intro he
    subst he
    rw [d5, d4, eR]
    simp only [exactly, normalized]
    refine ⟨trivial, ?_⟩
    ring

/-- C8, as the code has it, at the record `#808080` in binary64 arithmetic. -/
theorem C8_witness :
    (binary64 = exactly ∨ binary64 = binary64) ∧
    validHex (ofHex "#808080").Color = true ∧
    channel (ofHex "#808080").Color 1 = channel (ofHex "#808080").Color 3 ∧
    channel (ofHex "#808080").Color 3 = channel (ofHex "#808080").Color 5 ∧
    ∃ o, createColor binary64 (ofHex "#808080") = .ok (o, []) ∧ o.Red = o.Green ∧
      o.Green = o.Blue ∧ o.Chroma = 0 ∧ o.Sat = 0 ∧ o.Hue = 0 ∧
      o.Val = binary64 (binary64 o.Red / 255) ∧
      o.Luma = binary64 (binary64 (binary64 (binary64 (3 / 10) * o.Val)
          + binary64 (binary64 (59 / 100) * o.Val))
        + binary64 (binary64 (11 / 100) * o.Val)) ∧
      (binary64 = exactly → o.Val = normalized o.Red ∧ o.Luma = o.Val) :=
  ⟨Or.inr rfl, by decide, by decide, by decide,
    C8_achromatic binary64 (Or.inr rfl) (ofHex "#808080") (by decide) (by decide) (by decide)⟩

/-- C8 as stated fails: `#FFFFFF` is a valid hex string with three equal channels, and in
binary64 arithmetic `createColor` returns `Val = 1` and `Luma = 1 - 2^-53`, not 1: the
rounded sum `0.3 + 0.59 + 0.11` is below 1 by one unit in the last place. -/
theorem C8_counterexample :
    validHex (ofHex "#FFFFFF").Color = true ∧
    channel (ofHex "#FFFFFF").Color 1 = channel (ofHex "#FFFFFF").Color 3 ∧
    channel (ofHex "#FFFFFF").Color 3 = channel (ofHex "#FFFFFF").Color 5 ∧
    (returned (createColor binary64 (ofHex "#FFFFFF"))).map (fun o => o.Val) = some 1 ∧
    (returned (createColor binary64 (ofHex "#FFFFFF"))).map (fun o => o.Luma)
      = some (9007199254740991 / 9007199254740992) ∧
    (returned (createColor binary64 (ofHex "#FFFFFF"))).map (fun o => o.Luma) ≠ some 1 := by
  refine ⟨by decide, by decide, by decide, by decide!, by decide!, by decide!⟩

/-- C9, as the code has it: for every string of at least 7 bytes whose three two-byte
substrings are accepted by `strconv.ParseInt`, each of `Red`, `Green`, `Blue` lies in
`[-15, 255]`, and in `[0, 255]` when its substring does not begin with a minus sign. -/
theorem C9_channels_in_signed_range (rnd : ℚ → ℚ) (c : Color) (h7 : 7 ≤ c.Color.length)
    (hr : channelError c.Color 1 = none) (hg : channelError c.Color 3 = none)
    (hb : channelError c.Color 5 = none) :
    ∃ o, createColor rnd c = .ok (o, []) ∧
      -15 ≤ o.Red ∧ o.Red ≤ 255 ∧ -15 ≤ o.Green ∧ o.Green ≤ 255 ∧
      -15 ≤ o.Blue ∧ o.Blue ≤ 255 ∧
      (c.Color[1]? ≠ some 45 → 0 ≤ o.Red) ∧ (c.Color[3]? ≠ some 45 → 0 ≤ o.Green) ∧
      (c.Color[5]? ≠ some 45 → 0 ≤ o.Blue) := by
  obtain ⟨a0, a1, a2, a3, a4, a5, a6, tl, hs⟩ := exists_seven c.Color h7
  have hok := createColor_cons rnd c a0 a1 a2 a3 a4 a5 a6 tl hs
  have e5 : channelError c.Color 5 = (ParseInt [a5, a6]).2 := by simp [channelError, hs]
  rw [← e5, hb] at hok
  have key : ∀ x y : Byte, -15 ≤ int16 (ParseInt [x, y]).1 ∧ int16 (ParseInt [x, y]).1 ≤ 255 ∧
      (x ≠ 45 → 0 ≤ int16 (ParseInt [x, y]).1) := by
    intro x y
    obtain ⟨h1, h2⟩ := ParseInt_two_range x y
    rw [int16_of_small _ (by omega) (by omega)]
    refine ⟨h1, h2, fun hx => ?_⟩
    rcases ParseInt_two_cases x y with h | h | h | h
    · obtain ⟨dx, dy, _, _, _, _, h5⟩ := h
      rw [h5]
      simp
      omega
    · obtain ⟨_, dy, _, _, h5⟩ := h
      rw [h5]
      simp
    · exact absurd h.1 hx
    · rw [h]
  obtain ⟨r1, r2, r3⟩ := key a1 a2
  obtain ⟨g1, g2, g3⟩ := key a3 a4
  obtain ⟨b1, b2, b3⟩ := key a5 a6
  refine ⟨_, hok, r1, r2, g1, g2, b1, b2, ?_, ?_, ?_⟩
  · intro hne
    apply r3
    rintro rfl
    exact hne (by simp [hs])
  · intro hne
    apply g3
    rintro rfl
    exact hne (by simp [hs])
  · intro hne
    apply b3
    rintro rfl
    exact hne (by simp [hs])

/-- C9, as the code has it, at the record `#+a-F7c`, whose channels are 10, -15, 124. -/
theorem C9_witness :
    7 ≤ (ofHex "#+a-F7c").Color.length ∧
    channelError (ofHex "#+a-F7c").Color 1 = none ∧
    channelError (ofHex "#+a-F7c").Color 3 = none ∧
    channelError (ofHex "#+a-F7c").Color 5 = none ∧
    ∃ o, createColor binary64 (ofHex "#+a-F7c") = .ok (o, []) ∧
      -15 ≤ o.Red ∧ o.Red ≤ 255 ∧ -15 ≤ o.Green ∧ o.Green ≤ 255 ∧
      -15 ≤ o.Blue ∧ o.Blue ≤ 255 ∧
      ((ofHex "#+a-F7c").Color[1]? ≠ some 45 → 0 ≤ o.Red) ∧
      ((ofHex "#+a-F7c").Color[3]? ≠ some 45 → 0 ≤ o.Green) ∧
      ((ofHex "#+a-F7c").Color[5]? ≠ some 45 → 0 ≤ o.Blue) :=
  ⟨by decide, by decide, by decide, by decide,
    C9_channels_in_signed_range binary64 (ofHex "#+a-F7c") (by decide) (by decide)
      (by decide) (by decide)⟩

/-- C9 as stated fails: the three substrings `-F`, `00`, `00` of `#-F0000` are accepted by
`strconv.ParseInt` without error, and `createColor` returns `Red = -15`. -/
theorem C9_counterexample :
    7 ≤ (ofHex "#-F0000").Color.length ∧
    channelError (ofHex "#-F0000").Color 1 = none ∧
    channelError (ofHex "#-F0000").Color 3 = none ∧
    channelError (ofHex "#-F0000").Color 5 = none ∧
    (∀ rnd : ℚ → ℚ, ∃ o, createColor rnd (ofHex "#-F0000") = .ok (o, []) ∧ o.Red = -15) := by
  refine ⟨by decide, by decide, by decide, by decide, fun rnd => ⟨_, rfl, rfl⟩⟩

/-- C10: the three slice expressions `Color[1:3]`, `Color[3:5]`, `Color[5:7]` of
`createColor` are all in bounds exactly when the hex string has at least 7 bytes: on such
a record `createColor` returns an object, and on every shorter one (the empty string
included) it stops with the slice-out-of-range run-time error instead of returning. -/
theorem C10_slices_in_bounds_iff (rnd : ℚ → ℚ) (c : Color) :
    (((∃ t, slice c.Color 1 3 = .ok t) ∧ (∃ t, slice c.Color 3 5 = .ok t) ∧
        (∃ t, slice c.Color 5 7 = .ok t)) ↔ 7 ≤ c.Color.length) ∧
    ((∃ o printed, createColor rnd c = .ok (o, printed)) ↔ 7 ≤ c.Color.length) ∧
    (createColor rnd c = .error .sliceBoundsOutOfRange ↔ c.Color.length < 7) := by
  refine ⟨?_, ?_, ?_⟩
  · rw [slice_ok_iff, slice_ok_iff, slice_ok_iff]
    omega
  · constructor
    · rintro ⟨o, p, hok⟩
      by_contra hlt
      rw [createColor_short rnd c (by omega)] at hok
      cases hok
    · intro h7
      obtain ⟨a0, a1, a2, a3, a4, a5, a6, tl, hs⟩ := exists_seven c.Color h7
      exact ⟨_, _, createColor_cons rnd c a0 a1 a2 a3 a4 a5 a6 tl hs⟩
  · constructor
    · intro herr
      by_contra hge
      obtain ⟨a0, a1, a2, a3, a4, a5, a6, tl, hs⟩ := exists_seven c.Color (by omega)
      rw [createColor_cons rnd c a0 a1 a2 a3 a4 a5 a6 tl hs] at herr
      cases herr
    · exact createColor_short rnd c

end HHBackend
